import Mathlib

/-!
Verification of the lens traversal engine (`BaseEntity.load`): a proxy-based
path recorder followed by an asynchronous graph walk with fan-out, flattening
and de-duplication.

Shallow embedding notes:
* Entities are identified by `Nat` (JavaScript reference identity becomes
  `Nat` equality, which is exactly what `new Set` de-duplication compares).
* A property key on the proxy may be a string or a symbol; the recorder
  stores `String(property)`.
* Edge resolution (`c[path].load()`) is modelled by a `Graph` function giving,
  for a node and an edge name, either a singular result (node or `undefined`),
  a plural result (list of nodes), a rejected promise, or no such property at
  all (in which case `c[path]` is `undefined` and calling `.load()` throws a
  `TypeError` synchronously).
* The dynamic value of the `current` variable is a `Frontier`: either a single
  node-or-undefined, or an array of nodes-or-undefined.
* `Promise.all` over the mapped frontier is modelled in two phases, matching
  JavaScript evaluation order: the synchronous `map` phase (where dereferencing
  an `undefined` member or a missing property throws immediately, leftmost
  first), then the settling phase (where a rejection aborts the batch; among
  several rejections the model deterministically reports the leftmost one).
-/

namespace JoistLens

/-- A property key passed to the proxy `get` trap: a string key or a symbol. -/
inductive PropKey where
  | str : String → PropKey
  | sym : String → PropKey
  deriving DecidableEq, Repr

/-- `String(property)`: strings are kept as-is, symbols get their JavaScript
string representation. -/
def propToString : PropKey → String
  | .str s => s
  | .sym d => "Symbol(" ++ d ++ ")"

/-- The proxy `get` trap: `paths.push(String(property)); return receiver`.
The recorded list is the state, the receiver (probe) carries no data. -/
def recordAccess (paths : List String) (p : PropKey) : List String :=
  paths ++ [propToString p]

/-- Running the traversal function against the probe: the function is a chain
of property accesses, each of which fires the `get` trap once, in access
order, starting from the empty `paths` array. -/
def recordPath (accesses : List PropKey) : List String :=
  accesses.foldl recordAccess []

/-- Errors a walk can fail with: a rejected edge resolution (the underlying
fetch failed with some message) or a `TypeError` from dereferencing
`undefined`. -/
inductive Err where
  | resolution : String → Err
  | typeError : Err
  deriving DecidableEq, Repr

/-- The result of looking up `c[path]` and calling `.load()` on node `c`:
a singular reference (resolving to a node or `undefined`), a collection
(resolving to a list of nodes), a rejected promise, or no such property. -/
inductive EdgeResult where
  | singular : Option Nat → EdgeResult
  | plural : List Nat → EdgeResult
  | err : Err → EdgeResult
  | missing : EdgeResult
  deriving DecidableEq, Repr

/-- The object graph: edge resolution for each node and edge name. -/
abbrev Graph := Nat → String → EdgeResult

/-- The dynamic value of `current`: a single node-or-undefined, or an array
whose members are nodes-or-undefined. -/
inductive Frontier where
  | one : Option Nat → Frontier
  | many : List (Option Nat) → Frontier
  deriving DecidableEq, Repr

/-- A promise issued for one frontier member during the `map` phase: it will
either fulfil with the member's contribution to the flattened array, or
reject with an error. -/
inductive Pending where
  | val : List (Option Nat) → Pending
  | rej : Err → Pending
  deriving DecidableEq, Repr

/-- `[...new Set(current)]`: de-duplicate keeping the first occurrence of each
value, in order. -/
def dedupFirst (l : List (Option Nat)) : List (Option Nat) :=
  l.foldl (fun acc x => if x ∈ acc then acc else acc ++ [x]) []

/-- The synchronous part of `c => c[path].load()` for one member `c` of an
array frontier: dereferencing `undefined` or calling `.load()` on a missing
property throws a `TypeError` right away; otherwise a promise is issued.
A singular resolution contributes a one-element list (possibly containing
`undefined` — `.flat()` does not remove it), a plural resolution contributes
its whole list of nodes. -/
def issue (G : Graph) (h : String) : Option Nat → Except Err Pending
  | none => .error .typeError
  | some n =>
    match G n h with
    | .missing => .error .typeError
    | .err e => .ok (.rej e)
    | .singular v => .ok (.val [v])
    | .plural ns => .ok (.val (ns.map some))

/-- `current.map((c) => c[path].load())`: issue all member promises left to
right; a synchronous throw aborts the map at the first offending member. -/
def issueAll (G : Graph) (h : String) : List (Option Nat) → Except Err (List Pending)
  | [] => .ok []
  | c :: cs =>
    match issue G h c with
    | .error e => .error e
    | .ok p =>
      match issueAll G h cs with
      | .error e => .error e
      | .ok ps => .ok (p :: ps)

/-- `await Promise.all(...)`: all promises settle; a rejection fails the whole
batch with that error (the model reports the leftmost rejection), otherwise
the fulfilled values are recombined by frontier position. -/
def settleAll : List Pending → Except Err (List (List (Option Nat)))
  | [] => .ok []
  | .rej e :: _ => .error e
  | .val vs :: ps =>
    match settleAll ps with
    | .error e => .error e
    | .ok rs => .ok (vs :: rs)

/-- One hop on an array frontier:
`current = (await Promise.all(current.map((c) => c[path].load()))).flat();`
`current = [...new Set(current)];` -/
def stepMany (G : Graph) (h : String) (l : List (Option Nat)) :
    Except Err (List (Option Nat)) :=
  match issueAll G h l with
  | .error e => .error e
  | .ok ps =>
    match settleAll ps with
    | .error e => .error e
    | .ok rs => .ok (dedupFirst rs.flatten)

/-- One hop on a single-node frontier: `current = await current[path].load()`.
Dereferencing `undefined` or a missing property throws a `TypeError`; a
rejected load fails with its error; a plural result makes the frontier an
array as-is, with no de-duplication. -/
def stepOne (G : Graph) (h : String) : Option Nat → Except Err Frontier
  | none => .error .typeError
  | some n =>
    match G n h with
    | .missing => .error .typeError
    | .err e => .error e
    | .singular v => .ok (.one v)
    | .plural ns => .ok (.many (ns.map some))

/-- One iteration of the `for await (const path of paths)` loop, dispatching
on `Array.isArray(current)`. -/
def walkStep (G : Graph) (h : String) : Frontier → Except Err Frontier
  | .one c => stepOne G h c
  | .many l =>
    match stepMany G h l with
    | .error e => .error e
    | .ok l2 => .ok (.many l2)

/-- The replay loop of `load`: starting from the current frontier, perform
each recorded hop in order; any error aborts the loop and the remaining hops
never execute. -/
def walk (G : Graph) (f : Frontier) : List String → Except Err Frontier
  | [] => .ok f
  | h :: rest =>
    match walkStep G h f with
    | .error e => .error e
    | .ok f2 => walk G f2 rest

/-- `BaseEntity.load(fn)`: run the traversal function against the recording
proxy (its access sequence is `accesses`; its return value is discarded),
then replay the recorded path from `this` (a real node, hence
`Frontier.one (some root)`). -/
def load (G : Graph) (root : Nat) (accesses : List PropKey) : Except Err Frontier :=
  walk G (.one (some root)) (recordPath accesses)

/-- An all-singular resolution chain: each hop resolves, on the node reached
so far, through a singular edge to a present node, ending at `b`. -/
inductive SingularChain (G : Graph) : Nat → List String → Nat → Prop where
  | nil (a : Nat) : SingularChain G a [] a
  | cons (a m b : Nat) (h : String) (rest : List String)
      (hres : G a h = .singular (some m))
      (hrest : SingularChain G m rest b) :
      SingularChain G a (h :: rest) b

/-- Concrete graph: a two-hop singular chain 0 ─x→ 1 ─y→ 2. -/
def Gchain : Graph := fun n h =>
  if n = 0 ∧ h = "x" then .singular (some 1)
  else if n = 1 ∧ h = "y" then .singular (some 2)
  else .missing

/-- Concrete graph: 0 ─e1→ {1, 2} (plural); 1 ─e2→ 3; 2 ─e2→ 4. -/
def Gfan : Graph := fun n h =>
  if n = 0 ∧ h = "e1" then .plural [1, 2]
  else if n = 1 ∧ h = "e2" then .singular (some 3)
  else if n = 2 ∧ h = "e2" then .singular (some 4)
  else .missing

/-- Concrete graph: 0 ─e1→ {1, 2} (plural); both 1 ─e2→ 3 and 2 ─e2→ 3. -/
def Gshared : Graph := fun n h =>
  if n = 0 ∧ h = "e1" then .plural [1, 2]
  else if (n = 1 ∨ n = 2) ∧ h = "e2" then .singular (some 3)
  else .missing

/-- Concrete graph: 0 ─e1→ {1, 2}; 1 ─e2→ 3; 2's `e2` is unset. -/
def Gabs : Graph := fun n h =>
  if n = 0 ∧ h = "e1" then .plural [1, 2]
  else if n = 1 ∧ h = "e2" then .singular (some 3)
  else if n = 2 ∧ h = "e2" then .singular none
  else .missing

/-- Concrete graph: 0 ─e1→ a plural edge resolving to the list [1, 1] with a
duplicate member. -/
def Gdup : Graph := fun n h =>
  if n = 0 ∧ h = "e1" then .plural [1, 1]
  else .missing

/-- Concrete graph: resolving `e` on node 0 rejects; on node 1 it resolves to
node 5; on node 2 it resolves to an empty collection. -/
def Gerr : Graph := fun n h =>
  if n = 0 ∧ h = "e" then .err (.resolution "boom")
  else if n = 1 ∧ h = "e" then .singular (some 5)
  else if n = 2 ∧ h = "e" then .plural []
  else .missing

/-- Concrete graph: node 0's singular edge `p` is unset. -/
def Gmid : Graph := fun n h =>
  if n = 0 ∧ h = "p" then .singular none
  else .missing

lemma recordPath_go (accesses : List PropKey) (acc : List String) :
    accesses.foldl recordAccess acc = acc ++ accesses.map propToString := by
  induction accesses generalizing acc with
  | nil => simp
  | cons p ps ih => simp [recordAccess, ih, List.append_assoc]

lemma recordPath_eq_map (accesses : List PropKey) :
    recordPath accesses = accesses.map propToString := by
  simp [recordPath, recordPath_go]

/-- Claim C1: path recorder fidelity — for a traversal function performing a
pure chain of (string-keyed) property accesses `[h1, ..., hn]` on the probe,
the recorder's output equals exactly `[h1, ..., hn]` in access order; the
probe carries no node data and the function's return value plays no role. -/
theorem recordPath_fidelity (hops : List String) :
    recordPath (hops.map PropKey.str) = hops := by
  rw [recordPath_eq_map]
  induction hops with
  | nil => rfl
  | cons h hs ih => simpa [propToString] using ih

/-- Claim C7: singular chaining — walking a path of all-singular edges from
root `a` returns the single node obtained by resolving each edge step by step
(the sequential composition of the individual edge resolutions). -/
theorem walk_singular_chaining (G : Graph) (hops : List String) (a b : Nat)
    (hchain : SingularChain G a hops b) :
    walk G (.one (some a)) hops = .ok (.one (some b)) := by
  induction hchain with
  | nil a => rfl
  | cons a m b h rest hres hrest ih =>
    simp only [walk, walkStep, stepOne, hres]
    exact ih

/-- Witness for claim C7 on the concrete chain 0 ─x→ 1 ─y→ 2. -/
theorem walk_singular_chaining_witness :
    walk Gchain (.one (some 0)) ["x", "y"] = .ok (.one (some 2)) :=
  walk_singular_chaining Gchain ["x", "y"] 0 2
    (.cons 0 1 2 "x" ["y"] (by decide) (.cons 1 2 2 "y" [] (by decide) (.nil 2)))

/-- Claim C2: fan-out flattening preserves frontier order — with plural
`e1` resolving to `[b1, b2]` on the root and singular `e2` resolving to `c1`
on `b1` and to `c2` on `b2`, walking `[e1, e2]` yields `[c1, c2]`, `c1`
first, matching the frontier order `b1` before `b2`. -/
theorem walk_fanout_order (G : Graph) (a b1 b2 c1 c2 : Nat) (e1 e2 : String)
    (h1 : G a e1 = .plural [b1, b2])
    (h2 : G b1 e2 = .singular (some c1))
    (h3 : G b2 e2 = .singular (some c2))
    (hne : c1 ≠ c2) :
    walk G (.one (some a)) [e1, e2] = .ok (.many [some c1, some c2]) := by
  simp [walk, walkStep, stepOne, stepMany, issue, issueAll, settleAll,
    dedupFirst, h1, h2, h3, hne, Ne.symm hne]

/-- Witness for claim C2 on the concrete fan 0 ─e1→ {1, 2}, 1 ─e2→ 3,
2 ─e2→ 4. -/
theorem walk_fanout_order_witness :
    walk Gfan (.one (some 0)) ["e1", "e2"] = .ok (.many [some 3, some 4]) :=
  walk_fanout_order Gfan 0 1 2 3 4 "e1" "e2" (by decide) (by decide) (by decide)
    (by decide)

/-- Claim C3: de-duplication after a plural-frontier hop — when both members
of the fanned-out frontier `[b1, b2]` resolve `e2` to the same node `c`, the
flattened result is de-duplicated by identity and walking `[e1, e2]` returns
the single-element sequence `[c]`. -/
theorem walk_plural_dedup (G : Graph) (a b1 b2 c : Nat) (e1 e2 : String)
    (h1 : G a e1 = .plural [b1, b2])
    (h2 : G b1 e2 = .singular (some c))
    (h3 : G b2 e2 = .singular (some c)) :
    walk G (.one (some a)) [e1, e2] = .ok (.many [some c]) := by
  simp [walk, walkStep, stepOne, stepMany, issue, issueAll, settleAll,
    dedupFirst, h1, h2, h3]

/-- Witness for claim C3 on the concrete graph where nodes 1 and 2 share the
same `e2` target 3. -/
theorem walk_plural_dedup_witness :
    walk Gshared (.one (some 0)) ["e1", "e2"] = .ok (.many [some 3]) :=
  walk_plural_dedup Gshared 0 1 2 3 "e1" "e2" (by decide) (by decide) (by decide)

/-- Counterexample to claim C4: on a fanned-out frontier whose member 2 has
its `e2` edge unset, the final sequence does contain the `undefined`
placeholder — `.flat()` does not remove non-array elements and nothing
filters absent values, so the claim's "never contains a null/undefined
placeholder" fails. -/
theorem walk_absent_kept_counterexample :
    walk Gabs (.one (some 0)) ["e1", "e2"] = .ok (.many [some 3, none]) ∧
    Option.none ∈ [Option.some 3, Option.none] :=
  ⟨rfl, by decide⟩

/-- Claim C4 amended: when a member of a fanned-out frontier has its next
singular edge unset, no error is thrown for the absent target, but the absent
value is NOT filtered from the final plural result: it is carried through as
an `undefined` placeholder element of the returned sequence. -/
theorem walk_absent_placeholder (G : Graph) (a b1 b2 c : Nat) (e1 e2 : String)
    (h1 : G a e1 = .plural [b1, b2])
    (h2 : G b1 e2 = .singular (some c))
    (h3 : G b2 e2 = .singular none) :
    walk G (.one (some a)) [e1, e2] = .ok (.many [some c, none]) := by
  simp [walk, walkStep, stepOne, stepMany, issue, issueAll, settleAll,
    dedupFirst, h1, h2, h3]

/-- Witness for the amended claim C4 on the concrete graph `Gabs`. -/
theorem walk_absent_placeholder_witness :
    walk Gabs (.one (some 0)) ["e1", "e2"] = .ok (.many [some 3, none]) :=
  walk_absent_placeholder Gabs 0 1 2 3 "e1" "e2" (by decide) (by decide) (by decide)

/-- Counterexample to claim C5: the first fan-out (a plural edge resolved
from a single-node frontier) is NOT de-duplicated — with `e1` on the root
resolving to the duplicate list `[1, 1]`, walking `[e1]` returns both copies,
while de-duplication would have collapsed them. -/
theorem walk_first_fanout_dup_counterexample :
    walk Gdup (.one (some 0)) ["e1"] = .ok (.many [some 1, some 1]) ∧
    dedupFirst [some 1, some 1] ≠ [some 1, some 1] :=
  ⟨rfl, by decide⟩

/-- Claim C5 amended: de-duplication happens only on hops whose incoming
frontier is already a sequence; when a hop resolved from a single-node
frontier yields a sequence (the first fan-out), the resolved list is assigned
as the new frontier as-is, without de-duplication. -/
theorem walk_first_fanout_raw (G : Graph) (n : Nat) (h : String) (ns : List Nat)
    (hres : G n h = .plural ns) :
    walk G (.one (some n)) [h] = .ok (.many (ns.map some)) := by
  simp [walk, walkStep, stepOne, hres]

/-- Witness for the amended claim C5 on the concrete graph `Gdup`. -/
theorem walk_first_fanout_raw_witness :
    walk Gdup (.one (some 0)) ["e1"] = .ok (.many [some 1, some 1]) :=
  walk_first_fanout_raw Gdup 0 "e1" [1, 1] (by decide)

lemma issueAll_vals (G : Graph) (h : String) (l : List (Option Nat))
    (hl : ∀ c ∈ l, ∃ vs, issue G h c = .ok (.val vs)) :
    ∃ ps, issueAll G h l = .ok ps ∧ ∀ p ∈ ps, ∃ vs, p = Pending.val vs := by
  induction l with
  | nil => exact ⟨[], rfl, by simp⟩
  | cons c cs ih =>
    obtain ⟨vs, hvs⟩ := hl c (List.mem_cons_self _ _)
    obtain ⟨ps, hps, hall⟩ := ih (fun x hx => hl x (List.mem_cons_of_mem _ hx))
    refine ⟨.val vs :: ps, ?_, ?_⟩
    · simp [issueAll, hvs, hps]
    · intro p hp
      rcases List.mem_cons.mp hp with hh | hh
      · exact ⟨vs, hh⟩
      · exact hall p hh

lemma issueAll_ok (G : Graph) (h : String) (l : List (Option Nat))
    (hl : ∀ c ∈ l, ∃ p, issue G h c = .ok p) :
    ∃ ps, issueAll G h l = .ok ps := by
  induction l with
  | nil => exact ⟨[], rfl⟩
  | cons c cs ih =>
    obtain ⟨p, hp⟩ := hl c (List.mem_cons_self _ _)
    obtain ⟨ps, hps⟩ := ih (fun x hx => hl x (List.mem_cons_of_mem _ hx))
    exact ⟨p :: ps, by simp [issueAll, hp, hps]⟩

lemma issueAll_append (G : Graph) (h : String) (l1 l2 : List (Option Nat))
    (ps1 ps2 : List Pending)
    (h1 : issueAll G h l1 = .ok ps1) (h2 : issueAll G h l2 = .ok ps2) :
    issueAll G h (l1 ++ l2) = .ok (ps1 ++ ps2) := by
  induction l1 generalizing ps1 with
  | nil =>
    simp only [issueAll, Except.ok.injEq] at h1
    subst h1
    simpa using h2
  | cons c cs ih =>
    rw [List.cons_append]
    simp only [issueAll] at h1 ⊢
    cases hc : issue G h c with
    | error er => simp [hc] at h1
    | ok p =>
      simp only [hc] at h1 ⊢
      cases hcs : issueAll G h cs with
      | error er => simp [hcs] at h1
      | ok ps =>
        simp only [hcs, Except.ok.injEq] at h1
        subst h1
        simp [ih ps hcs]

lemma settleAll_vals_rej (ps1 : List Pending) (e : Err) (ps2 : List Pending)
    (h : ∀ p ∈ ps1, ∃ vs, p = Pending.val vs) :
    settleAll (ps1 ++ Pending.rej e :: ps2) = .error e := by
  induction ps1 with
  | nil => simp [settleAll]
  | cons p ps ih =>
    obtain ⟨vs, rfl⟩ := h p (List.mem_cons_self _ _)
    have hrec := ih (fun q hq => h q (List.mem_cons_of_mem _ hq))
    simp [settleAll, hrec]

/-- Claim C6: all-or-nothing failure propagation — if the hop's edge
resolution fails on a single-node frontier, or if any one member `b` of a
fanned-out frontier fails (the members issued before it resolving, those
after it at least issuing without a synchronous throw), the whole walk fails
with that same error; the remaining hops `rest` are never executed and no
frontier is returned. -/
theorem walk_failure_propagation (G : Graph) (n b : Nat) (h : String)
    (rest : List String) (l1 l2 : List (Option Nat)) (e : Err)
    (hn : G n h = .err e)
    (hb : G b h = .err e)
    (hpre : ∀ c ∈ l1, ∃ vs, issue G h c = .ok (.val vs))
    (hpost : ∀ c ∈ l2, ∃ p, issue G h c = .ok p) :
    walk G (.one (some n)) (h :: rest) = .error e ∧
    walk G (.many (l1 ++ some b :: l2)) (h :: rest) = .error e := by
  constructor
  · simp [walk, walkStep, stepOne, hn]
  · obtain ⟨ps1, hps1, hall⟩ := issueAll_vals G h l1 hpre
    obtain ⟨ps2, hps2⟩ := issueAll_ok G h l2 hpost
    have hub : issueAll G h (some b :: l2) = .ok (.rej e :: ps2) := by
      simp [issueAll, issue, hb, hps2]
    have hall2 : issueAll G h (l1 ++ some b :: l2) = .ok (ps1 ++ .rej e :: ps2) :=
      issueAll_append G h l1 (some b :: l2) ps1 (.rej e :: ps2) hps1 hub
    have hsettle := settleAll_vals_rej ps1 e ps2 hall
    simp [walk, walkStep, stepMany, hall2, hsettle]

/-- Witness for claim C6 on the concrete graph `Gerr`: node 0's edge `e`
rejects with a resolution error, both as a singular frontier and as the
middle member of the fanned-out frontier `[1, 0, 2]`. -/
theorem walk_failure_propagation_witness :
    walk Gerr (.one (some 0)) ["e", "later"] = .error (.resolution "boom") ∧
    walk Gerr (.many [some 1, some 0, some 2]) ["e", "later"] =
      .error (.resolution "boom") :=
  walk_failure_propagation Gerr 0 0 "e" ["later"] [some 1] [some 2]
    (.resolution "boom") (by decide) (by decide)
    (by
      intro c hc
      rw [List.mem_singleton] at hc
      subst hc
      exact ⟨[some 5], rfl⟩)
    (by
      intro c hc
      rw [List.mem_singleton] at hc
      subst hc
      exact ⟨.val [], rfl⟩)

/-- Counterexample to claim C8: the recorder cannot surface any error — an
access pattern it "cannot interpret" (here a symbol-keyed access, which no
chaining traversal produces) is simply recorded as its string representation,
and a recorded path naming no real edge still reaches the resolution loop,
failing there with a `TypeError` rather than aborting beforehand with a
malformed-path error. -/
theorem recorder_never_errors_counterexample :
    recordPath [PropKey.sym "toPrimitive", PropKey.str "bogus"] =
      ["Symbol(toPrimitive)", "bogus"] ∧
    load Gchain 0 [PropKey.str "bogus"] = .error .typeError :=
  ⟨rfl, rfl⟩

/-- Claim C8 amended: the recorder never raises an error and never aborts the
traversal: every access, string-keyed or not, is recorded as its string
representation, and the full recorded path is always handed to the walk, so
errors (if any) arise only during edge resolution. -/
theorem load_recorder_total (G : Graph) (root : Nat) (accesses : List PropKey) :
    load G root accesses = walk G (.one (some root)) (accesses.map propToString) := by
  rw [load, recordPath_eq_map]

/-- Claim C9: frontier plurality is monotone — a walk whose frontier is a
sequence can only ever produce a sequence frontier; it never reverts to a
single-node frontier, whatever the remaining hops are. -/
theorem frontier_plurality_monotone (G : Graph) (l : List (Option Nat))
    (hops : List String) (f : Frontier)
    (hw : walk G (.many l) hops = .ok f) :
    ∃ l2, f = .many l2 := by
  induction hops generalizing l with
  | nil =>
    simp only [walk, Except.ok.injEq] at hw
    exact ⟨l, hw.symm⟩
  | cons h rest ih =>
    simp only [walk, walkStep] at hw
    cases hm : stepMany G h l with
    | error e => simp [hm] at hw
    | ok l2 =>
      simp only [hm] at hw
      exact ih l2 hw

/-- Witness for claim C9 on the concrete graph `Gabs`. -/
theorem frontier_plurality_monotone_witness :
    ∃ l2, (Frontier.many [some 3] : Frontier) = .many l2 :=
  frontier_plurality_monotone Gabs [some 1] ["e2"] (.many [some 3]) rfl

/-- Claim C10: on a never-fanned-out chain, a singular edge resolving to an
absent value fails the walk with a `TypeError` on the next hop (dereferencing
`undefined`), while an absent value produced by the final hop is returned
successfully. -/
theorem walk_absent_mid_chain (G : Graph) (n : Nat) (h h2 : String)
    (rest : List String) (habs : G n h = .singular none) :
    walk G (.one (some n)) (h :: h2 :: rest) = .error .typeError ∧
    walk G (.one (some n)) [h] = .ok (.one none) := by
  constructor
  · simp [walk, walkStep, stepOne, habs]
  · simp [walk, walkStep, stepOne, habs]

/-- Witness for claim C10 on the concrete graph `Gmid`. -/
theorem walk_absent_mid_chain_witness :
    walk Gmid (.one (some 0)) ["p", "q"] = .error .typeError ∧
    walk Gmid (.one (some 0)) ["p"] = .ok (.one none) :=
  walk_absent_mid_chain Gmid 0 "p" "q" [] (by decide)

end JoistLens
